import Mathlib

/-!
Shallow embedding of the vip-manager reconciliation core: the
IPManager coordinator and reconciler pair from ip_manager.go and the
consul leader checker, together with theorems settling the
specification claims about them.

External effects are made explicit: the outcome of each OS command is
an input of the embedded function, and each helper returns the list of
commands it executed, its boolean result and the log lines it printed.
-/

set_option autoImplicit false

/-- Outcome of running an external command, as the Go exec API reports
it: no error, an exit-status error carrying the wait status of the
process, or any other error (for example: the binary was not found,
so the command could not start). -/
inductive CmdResult where
  | ok : CmdResult
  | exitErr (status : Nat) : CmdResult
  | otherErr (msg : String) : CmdResult
deriving DecidableEq, Repr

/-- The external OS commands the manager invokes. -/
inductive OsCmd where
  | ipAddr (action cidr iface : String)
  | ipAddrShow (iface : String)
  | arping (iface vip : String)
deriving DecidableEq, Repr

/-- Result of one helper call: the OS commands it executed in order,
its boolean return value, and the log lines it printed. -/
structure ExecTrace where
  cmds : List OsCmd
  result : Bool
  logs : List String
deriving DecidableEq, Repr

/-- Embeds runAddressConfiguration from ip_manager.go: run
`ip addr <action> <cidr> dev <iface>` once; an exit status of 2 (the
target is already in the terminal state) is success, any other exit
status is logged and is failure, any other command error is logged
and is failure, a clean run is success. -/
def runAddressConfiguration (cidr iface vip action : String)
    (res : CmdResult) : ExecTrace :=
  let cmd := OsCmd.ipAddr action cidr iface
  match res with
  | CmdResult.ok => ⟨[cmd], true, []⟩
  | CmdResult.exitErr status =>
      if status = 2 then ⟨[cmd], true, []⟩
      else ⟨[cmd], false, ["Got error " ++ toString status]⟩
  | CmdResult.otherErr msg =>
      ⟨[cmd], false,
        ["Error running ip address " ++ action ++ " " ++ vip ++ " on "
          ++ iface ++ ": " ++ msg]⟩

/-- Prepend a log line to the trace of a helper call. -/
def prependLog (msg : String) (t : ExecTrace) : ExecTrace :=
  { t with logs := msg :: t.logs }

/-- Embeds ConfigureAddress: log, then run the add action. -/
def ConfigureAddress (cidr iface vip : String) (res : CmdResult) : ExecTrace :=
  prependLog ("Configuring address " ++ cidr ++ " on " ++ iface)
    (runAddressConfiguration cidr iface vip "add" res)

/-- Embeds DeconfigureAddress: log, then run the delete action. -/
def DeconfigureAddress (cidr iface vip : String) (res : CmdResult) : ExecTrace :=
  prependLog ("Removing address " ++ cidr ++ " on " ++ iface)
    (runAddressConfiguration cidr iface vip "delete" res)

/-- Embeds ARPQueryDuplicates: run arping once; any command error at
all yields false, a clean exit yields true. Nothing is logged. -/
def ARPQueryDuplicates (iface vip : String) (res : CmdResult) : ExecTrace :=
  ⟨[OsCmd.arping iface vip],
    match res with
    | CmdResult.ok => true
    | CmdResult.exitErr _ => false
    | CmdResult.otherErr _ => false,
    []⟩

/-! ### String scanning used by QueryAddress -/

/-- Does the character list start with the needle? Mirrors the byte
comparison underlying strings.Contains in the Go standard library. -/
def leadEq : List Char → List Char → Bool
  | [], _ => true
  | _ :: _, [] => false
  | a :: as, b :: bs => a == b && leadEq as bs

/-- Does the needle occur somewhere inside the haystack list? -/
def subAt (needle : List Char) : List Char → Bool
  | [] => leadEq needle []
  | h :: t => leadEq needle (h :: t) || subAt needle t

/-- Embeds strings.Contains from Go: substring containment. -/
def stringsContains (hay needle : String) : Bool :=
  subAt needle.toList hay.toList

/-- Embeds the scan loop of QueryAddress from ip_manager.go: the
lookup string is "inet " followed by the configured CIDR, the result
starts false and becomes true when any output line of
`ip addr show <iface>` contains the lookup string as a substring. -/
def QueryAddress (cidr : String) (lines : List String) : Bool :=
  let lookup := "inet " ++ cidr
  lines.foldl (fun result line =>
    if stringsContains line lookup then true else result) false

/-- Written from the words of the spec, for comparison with
QueryAddress: an equality test of the configured CIDR against the
entries of the live address list of the interface. -/
def queryAddressSpecExact (cidr : String) (entries : List String) : Bool :=
  entries.any (fun e => e == cidr)

/-- Renders the address entries of an interface into the output lines
of `ip addr show`, one inet line per carried address. -/
def renderAddrLines (entries : List String) : List String :=
  entries.map (fun e => "    inet " ++ e ++ " brd 10.0.0.255 scope global eth0")

/-! ### QueryAddress with the process startup of the command

QueryAddress in ip_manager.go calls panic when the stdout pipe of the
`ip addr show` command cannot be created or when the command cannot be
started; only a started command reaches the scan loop. A panic in the
reconciler goroutine terminates the whole process, so it is modelled
as the error branch of Except. -/

/-- How the `ip addr show` invocation inside QueryAddress went: the
stdout pipe could not be created, the command could not be started,
or the command started and produced these output lines. -/
inductive QueryOutcome where
  | pipeErr (msg : String)
  | startErr (msg : String)
  | output (lines : List String)
deriving DecidableEq, Repr

/-- Embeds QueryAddress including its two panic sites: a pipe or
start failure panics (Except.error, fatal to the process), a started
command returns the result of the scan loop. -/
def QueryAddressRun (cidr : String) (q : QueryOutcome) : Except String Bool :=
  match q with
  | QueryOutcome.pipeErr msg => Except.error msg
  | QueryOutcome.startErr msg => Except.error msg
  | QueryOutcome.output lines => Except.ok (QueryAddress cidr lines)

/-- One pass of the applyLoop body on the mismatch branch: query the
actual state (which may panic), compare with the desired snapshot,
and when they differ run the configure or deconfigure helper, whose
own failures are returned as an ordinary boolean. The Option result
is the boolean outcome of the mutation helper, or none when actual
already equals desired. -/
def reconcilePass (cidr iface vip : String) (desired : Bool)
    (q : QueryOutcome) (mres : CmdResult) : Except String (Option Bool) :=
  match QueryAddressRun cidr q with
  | Except.error e => Except.error e
  | Except.ok actual =>
      if actual = desired then Except.ok none
      else if desired then
        Except.ok (some (ConfigureAddress cidr iface vip mres).result)
      else
        Except.ok (some (DeconfigureAddress cidr iface vip mres).result)

/-! ### The consul leadership watcher

GetChangeNotificationStream long-polls the consul key-value store.
The environment is a list of poll steps: for each loop iteration, the
response the store gave and whether the context was already cancelled
during that iteration. The blocking read may return with an unchanged
value and index when the server-side wait time elapses; such a step is
represented by a found response repeating the previous value and
index. -/

/-- A key-value store response as the watcher sees it: an error, a
nil response (the key has no value yet), or a value with its modify
index. -/
inductive KVResp where
  | err (msg : String)
  | missing
  | found (value : String) (modifyIndex : Nat)
deriving DecidableEq, Repr

/-- One loop iteration of the environment of the watcher. -/
structure PollStep where
  cancelled : Bool
  resp : KVResp
deriving DecidableEq, Repr

/-- The value ctx.Err() returns once a context is cancelled. -/
inductive CtxErr where
  | canceled
deriving DecidableEq, Repr

/-- Observable outcome of running the watcher over a finite list of
poll steps: the booleans sent to the output channel in order, the log
lines, the seconds slept before each retry, whether the loop was
broken (the function returned), the final wait index, and the value
the function returned when it did. -/
structure WatchOut where
  emitted : List Bool
  logs : List String
  sleeps : List Nat
  exited : Bool
  finalIndex : Nat
  retErr : Option CtxErr
deriving DecidableEq, Repr

/-- Embeds GetChangeNotificationStream from the consul checker. State
is the wait index of the query options. On a store error: break and
return ctx.Err() when the context is cancelled, otherwise log, sleep
one second and retry with the same wait index. On a nil response:
log, sleep one second and retry with the same wait index. On a found
value: compute value == nodename, advance the wait index to the
modify index, then either break on cancellation or send the boolean.
When the input list runs out the loop is still running. -/
def watchRun (nodename key : String) (wi : Nat) : List PollStep → WatchOut
  | [] => ⟨[], [], [], false, wi, none⟩
  | p :: ps =>
    match p.resp with
    | KVResp.err m =>
        if p.cancelled then ⟨[], [], [], true, wi, some CtxErr.canceled⟩
        else
          let r := watchRun nodename key wi ps
          { r with logs := ("consul error: " ++ m) :: r.logs,
                   sleeps := 1 :: r.sleeps }
    | KVResp.missing =>
        let r := watchRun nodename key wi ps
        { r with
            logs := ("Cannot get variable for key " ++ key
              ++ ". Will try again in a second.") :: r.logs,
            sleeps := 1 :: r.sleeps }
    | KVResp.found v idx =>
        if p.cancelled then ⟨[], [], [], true, idx, some CtxErr.canceled⟩
        else
          let r := watchRun nodename key idx ps
          { r with emitted := (v == nodename) :: r.emitted }

/-! ### The coordinator and the reconciler

SyncStates and applyLoop from ip_manager.go form a two-thread system
communicating through the shared boolean currentState, its mutex and
the condition variable recheck, plus the cancellable context and the
wait group joining the reconciler goroutine. Each critical section or
blocking point of the Go code becomes one atomic step; the scheduler
and the environment are a list of events. -/

/-- Program counter of the reconciler goroutine running applyLoop:
at the loop head about to query and compare, blocked inside
recheck.Wait, woken from the wait and about to check cancellation, or
returned from applyLoop. -/
inductive RPC where
  | top
  | waiting
  | woken
  | exited
deriving DecidableEq, Repr, Fintype

/-- Program counter of the coordinator running SyncStates: in the
select loop, blocked in wg.Wait after observing cancellation, or
returned. -/
inductive CPC where
  | loop
  | waitingRec
  | returned
deriving DecidableEq, Repr, Fintype

/-- Joint state of the two threads and the shared data: the shared
desired-state boolean currentState, whether the context has been
cancelled, and the two program counters. -/
structure Sys where
  desired : Bool
  ctxDone : Bool
  rpc : RPC
  cpc : CPC
deriving DecidableEq, Repr, Fintype

/-- Scheduler and environment events: the coordinator receives a
boolean from the states channel, the ticker fires, the environment
cancels the context, the coordinator observes the cancelled context
in its select, the coordinator finishes wg.Wait, or the reconciler
runs its next atomic step with the given result of the actual-state
query. -/
inductive Ev where
  | deliver (b : Bool)
  | tick
  | cancelCtx
  | coordObserveDone
  | coordJoin
  | recRun (actual : Bool)
deriving DecidableEq, Repr, Fintype

/-- Observable actions of a step: a condition-variable broadcast, the
reconciler reading its desired-state snapshot under the lock, the
actual-state query, and the configure and deconfigure helper calls. -/
inductive Act where
  | broadcast
  | snapshot (b : Bool)
  | query
  | configure
  | deconfigure
deriving DecidableEq, Repr, Fintype

/-- Effect of recheck.Broadcast: a reconciler blocked inside
recheck.Wait becomes woken; a broadcast with no waiter is lost. -/
def broadcastEff (s : Sys) : Sys :=
  { s with rpc := if s.rpc = RPC.waiting then RPC.woken else s.rpc }

/-- One atomic step of the joint system. Events aimed at a thread
that is not at the matching program point do nothing.

deliver b: the select case receiving from the states channel; under
the lock, when currentState differs from b it is updated and the
condition variable is broadcast, otherwise nothing happens.

tick: the ticker case; broadcast unconditionally.

cancelCtx: the environment cancels the context.

coordObserveDone: the ctx.Done select case; broadcast once more and
enter wg.Wait.

coordJoin: wg.Wait returns, which needs the reconciler goroutine to
have exited; SyncStates then returns.

recRun actual: the reconciler at the loop head queries the actual
state, snapshots the desired state under the lock, and either runs
the mutation helper on a mismatch and loops, or enters recheck.Wait;
a woken reconciler checks the context, deconfigures once and exits
when cancelled, otherwise goes back to the loop head. -/
def sysStep (s : Sys) (e : Ev) : Sys × List Act :=
  match e with
  | Ev.deliver b =>
      if s.cpc = CPC.loop then
        if s.desired = b then (s, [])
        else (broadcastEff { s with desired := b }, [Act.broadcast])
      else (s, [])
  | Ev.tick =>
      if s.cpc = CPC.loop then (broadcastEff s, [Act.broadcast])
      else (s, [])
  | Ev.cancelCtx => ({ s with ctxDone := true }, [])
  | Ev.coordObserveDone =>
      if s.cpc = CPC.loop ∧ s.ctxDone = true then
        (broadcastEff { s with cpc := CPC.waitingRec }, [Act.broadcast])
      else (s, [])
  | Ev.coordJoin =>
      if s.cpc = CPC.waitingRec ∧ s.rpc = RPC.exited then
        ({ s with cpc := CPC.returned }, [])
      else (s, [])
  | Ev.recRun actual =>
      match s.rpc with
      | RPC.top =>
          if actual = s.desired then
            ({ s with rpc := RPC.waiting },
              [Act.query, Act.snapshot s.desired])
          else
            (s, [Act.query, Act.snapshot s.desired,
              if s.desired then Act.configure else Act.deconfigure])
      | RPC.woken =>
          if s.ctxDone then ({ s with rpc := RPC.exited }, [Act.deconfigure])
          else ({ s with rpc := RPC.top }, [])
      | RPC.waiting => (s, [])
      | RPC.exited => (s, [])

/-- Run the joint system over a list of events, accumulating the
performed actions in order. -/
def sysRun (s : Sys) : List Ev → Sys × List Act
  | [] => (s, [])
  | e :: es =>
      let p := sysStep s e
      let q := sysRun p.1 es
      (q.1, p.2 ++ q.2)

/-- Initial state: NewIPManager sets currentState to false, the
context is live, the reconciler starts at the loop head and the
coordinator in its select loop. -/
def sysInit : Sys :=
  ⟨false, false, RPC.top, CPC.loop⟩

/-- The ticker interval of SyncStates, in seconds. -/
def tickerIntervalSeconds : Nat := 10

/-- The OS commands performed by each observable action: the
actual-state query runs the show form of ip addr, the configure and
deconfigure actions run the add and delete forms; condition-variable
actions run no command. -/
def actCmds (cidr iface vip : String) : Act → List OsCmd
  | Act.broadcast => []
  | Act.snapshot _ => []
  | Act.query => [OsCmd.ipAddrShow iface]
  | Act.configure => (ConfigureAddress cidr iface vip CmdResult.ok).cmds
  | Act.deconfigure => (DeconfigureAddress cidr iface vip CmdResult.ok).cmds

/-- The most recently delivered value of a delivery sequence, with a
default for the empty sequence. -/
def lastDeliv (d : Bool) : List Bool → Bool
  | [] => d
  | b :: bs => lastDeliv b bs

/-- True on the response branches the watcher treats as retryable
failures: a store error or a nil response. -/
def KVResp.isFailure : KVResp → Bool
  | KVResp.err _ => true
  | KVResp.missing => true
  | KVResp.found _ _ => false

/-- True on the Except branch that models a panic. -/
def exceptFatal {α : Type} : Except String α → Bool
  | Except.error _ => true
  | Except.ok _ => false

/-- True on the query outcomes that never reach the scan loop: the
pipe could not be created or the command could not be started. -/
def QueryOutcome.beforeScan : QueryOutcome → Bool
  | QueryOutcome.pipeErr _ => true
  | QueryOutcome.startErr _ => true
  | QueryOutcome.output _ => false

/-! ## Helper lemmas -/

theorem leadEq_iff (n : List Char) : ∀ h, leadEq n h = true ↔ ∃ t, h = n ++ t := by
  induction n with
  | nil =>
      intro h
      simp [leadEq]
  | cons a as ih =>
      intro h
      cases h with
      | nil =>
          simp [leadEq]
      | cons b bs =>
          simp only [leadEq, Bool.and_eq_true, beq_iff_eq, ih bs, List.cons_append]
          constructor
          · rintro ⟨rfl, t, rfl⟩
            exact ⟨t, rfl⟩
          · rintro ⟨t, ht⟩
            injection ht with h1 h2
            exact ⟨h1.symm, t, h2⟩

theorem subAt_iff (n : List Char) : ∀ h, subAt n h = true ↔ ∃ p t, h = p ++ n ++ t := by
  intro h
  induction h with
  | nil =>
      simp only [subAt, leadEq_iff]
      constructor
      · rintro ⟨t, ht⟩
        exact ⟨[], t, ht⟩
      · rintro ⟨p, t, ht⟩
        rw [List.nil_eq, List.append_assoc, List.append_eq_nil] at ht
        exact ⟨t, by simp [ht.1, (List.append_eq_nil.mp ht.2).1, (List.append_eq_nil.mp ht.2).2]⟩
  | cons c cs ih =>
      simp only [subAt, Bool.or_eq_true, leadEq_iff, ih]
      constructor
      · rintro (⟨t, ht⟩ | ⟨p, t, ht⟩)
        · exact ⟨[], t, by simpa using ht⟩
        · exact ⟨c :: p, t, by simp [ht]⟩
      · rintro ⟨p, t, ht⟩
        cases p with
        | nil =>
            exact Or.inl ⟨t, by simpa using ht⟩
        | cons p0 ps =>
            injection ht with h1 h2
            exact Or.inr ⟨ps, t, by simpa using h2⟩

theorem foldl_scan_or {α : Type} (c : α → Bool) :
    ∀ (ls : List α) (b : Bool),
      ls.foldl (fun result l => if c l then true else result) b = (b || ls.any c) := by
  intro ls
  induction ls with
  | nil =>
      intro b
      simp
  | cons a ls ih =>
      intro b
      rw [List.foldl_cons, ih, List.any_cons]
      cases hca : c a <;> simp [hca, Bool.or_assoc]

theorem queryAddress_any (cidr : String) (lines : List String) :
    QueryAddress cidr lines
      = lines.any (fun l => stringsContains l ("inet " ++ cidr)) := by
  show lines.foldl
      (fun result line =>
        if stringsContains line ("inet " ++ cidr) then true else result) false
    = lines.any (fun l => stringsContains l ("inet " ++ cidr))
  rw [foldl_scan_or]
  simp

theorem sysRun_deliver_state (ds : List Bool) :
    ∀ d cd : Bool,
      (sysRun ⟨d, cd, RPC.top, CPC.loop⟩ (ds.map Ev.deliver)).1
        = ⟨lastDeliv d ds, cd, RPC.top, CPC.loop⟩ := by
  induction ds with
  | nil =>
      intro d cd
      simp [sysRun, lastDeliv]
  | cons b ds ih =>
      intro d cd
      by_cases hb : d = b
      · simp [sysRun, sysStep, hb, ih, lastDeliv]
      · simp [sysRun, sysStep, hb, broadcastEff, ih, lastDeliv]

theorem sysStep_exited_mono :
    ∀ (s : Sys) (e : Ev), s.rpc = RPC.exited → (sysStep s e).1.rpc = RPC.exited := by
  decide

theorem sysStep_exit_source :
    ∀ (s : Sys) (e : Ev), (sysStep s e).1.rpc = RPC.exited →
      s.rpc = RPC.exited ∨ Act.deconfigure ∈ (sysStep s e).2 := by
  decide

theorem sysStep_returned_source :
    ∀ (s : Sys) (e : Ev), (sysStep s e).1.cpc = CPC.returned →
      s.cpc = CPC.returned ∨ (s.cpc = CPC.waitingRec ∧ s.rpc = RPC.exited) := by
  decide

theorem sysRun_exited_mono :
    ∀ (es : List Ev) (s : Sys), s.rpc = RPC.exited →
      (sysRun s es).1.rpc = RPC.exited := by
  intro es
  induction es with
  | nil =>
      intro s h
      exact h
  | cons e es ih =>
      intro s h
      exact ih _ (sysStep_exited_mono s e h)

theorem sysRun_exit_deconf :
    ∀ (es : List Ev) (s : Sys), (sysRun s es).1.rpc = RPC.exited →
      s.rpc = RPC.exited ∨ Act.deconfigure ∈ (sysRun s es).2 := by
  intro es
  induction es with
  | nil =>
      intro s h
      exact Or.inl h
  | cons e es ih =>
      intro s h
      have h2 : (sysRun (sysStep s e).1 es).1.rpc = RPC.exited := h
      rcases ih _ h2 with h3 | h3
      · rcases sysStep_exit_source s e h3 with h4 | h4
        · exact Or.inl h4
        · exact Or.inr (by simpa [sysRun] using List.mem_append.mpr (Or.inl h4))
      · exact Or.inr (by simpa [sysRun] using List.mem_append.mpr (Or.inr h3))

theorem sysRun_returned_exited :
    ∀ (es : List Ev) (s : Sys), (sysRun s es).1.cpc = CPC.returned →
      s.cpc = CPC.returned ∨ (sysRun s es).1.rpc = RPC.exited := by
  intro es
  induction es with
  | nil =>
      intro s h
      exact Or.inl h
  | cons e es ih =>
      intro s h
      have h2 : (sysRun (sysStep s e).1 es).1.cpc = CPC.returned := h
      rcases ih _ h2 with h3 | h3
      · rcases sysStep_returned_source s e h3 with h4 | h4
        · exact Or.inl h4
        · have h5 : (sysStep s e).1.rpc = RPC.exited :=
            sysStep_exited_mono s e h4.2
          exact Or.inr (sysRun_exited_mono es _ h5)
      · exact Or.inr h3

theorem runAC_cmds (cidr iface vip action : String) (res : CmdResult) :
    (runAddressConfiguration cidr iface vip action res).cmds
      = [OsCmd.ipAddr action cidr iface] := by
  cases res with
  | ok => rfl
  | exitErr st =>
      by_cases h : st = 2 <;> simp [runAddressConfiguration, h]
  | otherErr m => rfl

theorem watchRun_exit_cancel (node key : String) :
    ∀ (ps : List PollStep) (wi : Nat), (watchRun node key wi ps).exited = true →
      ∃ p ∈ ps, p.cancelled = true := by
  intro ps
  induction ps with
  | nil =>
      intro wi h
      simp [watchRun] at h
  | cons p ps ih =>
      intro wi h
      cases hr : p.resp with
      | err m =>
          cases hc : p.cancelled with
          | true => exact ⟨p, List.mem_cons_self p ps, hc⟩
          | false =>
              simp only [watchRun, hr, hc, Bool.false_eq_true, if_false] at h
              obtain ⟨q, hq, hqc⟩ := ih wi h
              exact ⟨q, List.mem_cons_of_mem p hq, hqc⟩
      | missing =>
          simp only [watchRun, hr] at h
          obtain ⟨q, hq, hqc⟩ := ih wi h
          exact ⟨q, List.mem_cons_of_mem p hq, hqc⟩
      | found v idx =>
          cases hc : p.cancelled with
          | true => exact ⟨p, List.mem_cons_self p ps, hc⟩
          | false =>
              simp only [watchRun, hr, hc, Bool.false_eq_true, if_false] at h
              obtain ⟨q, hq, hqc⟩ := ih idx h
              exact ⟨q, List.mem_cons_of_mem p hq, hqc⟩

theorem watchRun_exit_ret (node key : String) :
    ∀ (ps : List PollStep) (wi : Nat), (watchRun node key wi ps).exited = true →
      (watchRun node key wi ps).retErr = some CtxErr.canceled := by
  intro ps
  induction ps with
  | nil =>
      intro wi h
      simp [watchRun] at h
  | cons p ps ih =>
      intro wi h
      cases hr : p.resp with
      | err m =>
          cases hc : p.cancelled with
          | true => simp [watchRun, hr, hc]
          | false =>
              simp only [watchRun, hr, hc, Bool.false_eq_true, if_false] at h ⊢
              exact ih wi h
      | missing =>
          simp only [watchRun, hr] at h ⊢
          exact ih wi h
      | found v idx =>
          cases hc : p.cancelled with
          | true => simp [watchRun, hr, hc]
          | false =>
              simp only [watchRun, hr, hc, Bool.false_eq_true, if_false] at h ⊢
              exact ih idx h

/-! ## Claim theorems -/

/-- Claim C1: for every sequence of leadership booleans delivered to
the coordinator, the desired-state cell afterwards holds the most
recently delivered value, the next reconciler pass snapshots exactly
that value (any snapshot it takes equals it, so no earlier value can
be observed), and deliveries coalesce: the state after the whole
sequence equals the state after delivering only the last value, so no
history of intermediate values is queued. -/
theorem claim_C1_latest_value (ds : List Bool) (d cd a : Bool) :
    ((sysRun ⟨d, cd, RPC.top, CPC.loop⟩ (ds.map Ev.deliver)).1.desired
      = lastDeliv d ds) ∧
    (Act.snapshot (lastDeliv d ds) ∈
      (sysStep (sysRun ⟨d, cd, RPC.top, CPC.loop⟩ (ds.map Ev.deliver)).1
        (Ev.recRun a)).2) ∧
    (∀ b, Act.snapshot b ∈
      (sysStep (sysRun ⟨d, cd, RPC.top, CPC.loop⟩ (ds.map Ev.deliver)).1
        (Ev.recRun a)).2 → b = lastDeliv d ds) ∧
    ((sysRun ⟨d, cd, RPC.top, CPC.loop⟩ (ds.map Ev.deliver)).1
      = (sysRun ⟨d, cd, RPC.top, CPC.loop⟩ [Ev.deliver (lastDeliv d ds)]).1) := by
  have hs := sysRun_deliver_state ds d cd
  have key1 : ∀ (L c2 a2 : Bool),
      Act.snapshot L ∈ (sysStep ⟨L, c2, RPC.top, CPC.loop⟩ (Ev.recRun a2)).2 := by
    decide
  have key2 : ∀ (L c2 a2 b : Bool),
      Act.snapshot b ∈ (sysStep ⟨L, c2, RPC.top, CPC.loop⟩ (Ev.recRun a2)).2 →
      b = L := by
    decide
  have key3 : ∀ (L d2 c2 : Bool),
      (sysRun ⟨d2, c2, RPC.top, CPC.loop⟩ [Ev.deliver L]).1
        = ⟨L, c2, RPC.top, CPC.loop⟩ := by
    decide
  refine ⟨by rw [hs], ?_, ?_, ?_⟩
  · rw [hs]
    exact key1 _ _ _
  · intro b hb
    rw [hs] at hb
    exact key2 _ _ _ _ hb
  · rw [hs, key3]

/-- Claim C2: at its select loop, the coordinator handles a delivered
boolean that differs from the current desired state by updating the
cell and broadcasting once; an equal boolean changes nothing and does
not broadcast; a ticker event broadcasts unconditionally and leaves
the desired state unchanged; and the ticker interval is 10 seconds. -/
theorem claim_C2_coordinator_events (s : Sys) (b : Bool) (h : s.cpc = CPC.loop) :
    (s.desired ≠ b →
      (sysStep s (Ev.deliver b)).1.desired = b ∧
      (sysStep s (Ev.deliver b)).2 = [Act.broadcast]) ∧
    (s.desired = b → sysStep s (Ev.deliver b) = (s, [])) ∧
    ((sysStep s Ev.tick).2 = [Act.broadcast]) ∧
    ((sysStep s Ev.tick).1.desired = s.desired) ∧
    tickerIntervalSeconds = 10 := by
  revert h
  revert b
  revert s
  decide

/-- Witness for C2 at a concrete state and input. -/
theorem claim_C2_witness :
    (sysStep sysInit (Ev.deliver true)).1.desired = true ∧
    (sysStep sysInit (Ev.deliver true)).2 = [Act.broadcast] :=
  (claim_C2_coordinator_events sysInit true (by decide)).1 (by decide)

/-- Claim C3: for the address add and delete helpers, a command exit
status of 2 reports success; every other exit status and every other
command error reports failure and is logged; exactly one OS command
is run per call, so there is no immediate retry; and the configure
and deconfigure wrappers return exactly the classification of the
underlying add and delete runs. -/
theorem claim_C3_exit_code_classification (cidr iface vip action : String) :
    ((runAddressConfiguration cidr iface vip action (CmdResult.exitErr 2)).result
      = true) ∧
    (∀ st, st ≠ 2 →
      (runAddressConfiguration cidr iface vip action (CmdResult.exitErr st)).result
        = false ∧
      (runAddressConfiguration cidr iface vip action (CmdResult.exitErr st)).logs
        ≠ []) ∧
    (∀ m,
      (runAddressConfiguration cidr iface vip action (CmdResult.otherErr m)).result
        = false ∧
      (runAddressConfiguration cidr iface vip action (CmdResult.otherErr m)).logs
        ≠ []) ∧
    (∀ res, (runAddressConfiguration cidr iface vip action res).cmds.length = 1) ∧
    (∀ res, (ConfigureAddress cidr iface vip res).result
      = (runAddressConfiguration cidr iface vip "add" res).result) ∧
    (∀ res, (DeconfigureAddress cidr iface vip res).result
      = (runAddressConfiguration cidr iface vip "delete" res).result) := by
  refine ⟨by simp [runAddressConfiguration], ?_, ?_, ?_, fun res => rfl, fun res => rfl⟩
  · intro st hst
    simp [runAddressConfiguration, hst]
  · intro m
    simp [runAddressConfiguration]
  · intro res
    rw [runAC_cmds]
    rfl

/-- Witness for C3 at a concrete non-2 exit status. -/
theorem claim_C3_witness :
    (runAddressConfiguration "10.0.0.1/24" "eth0" "10.0.0.1" "add"
      (CmdResult.exitErr 1)).result = false :=
  ((claim_C3_exit_code_classification "10.0.0.1/24" "eth0" "10.0.0.1" "add").2.1
    1 (by decide)).1

/-- Claim C4: a reconciler that has been woken and observes the
cancelled context performs exactly one deconfigure action and moves
to the exited state, whatever the desired state is; and once exited
it performs nothing further. -/
theorem claim_C4_cancellation_deconfigure (s : Sys) (a : Bool)
    (h1 : s.rpc = RPC.woken) (h2 : s.ctxDone = true) :
    (sysStep s (Ev.recRun a) = ({ s with rpc := RPC.exited }, [Act.deconfigure])) ∧
    (∀ (s2 : Sys) (a2 : Bool), s2.rpc = RPC.exited →
      sysStep s2 (Ev.recRun a2) = (s2, [])) := by
  have k : ∀ (s3 : Sys) (a3 : Bool), s3.rpc = RPC.woken → s3.ctxDone = true →
      sysStep s3 (Ev.recRun a3) = ({ s3 with rpc := RPC.exited }, [Act.deconfigure]) := by
    decide
  exact ⟨k s a h1 h2, by decide⟩

/-- Witness for C4 at a concrete woken, cancelled state. -/
theorem claim_C4_witness :
    sysStep ⟨true, true, RPC.woken, CPC.loop⟩ (Ev.recRun false)
      = (⟨true, true, RPC.exited, CPC.loop⟩, [Act.deconfigure]) :=
  (claim_C4_cancellation_deconfigure ⟨true, true, RPC.woken, CPC.loop⟩ false
    rfl rfl).1

/-- Claim C5 as stated is false on the code: in the scenario with
node identifier node1 and marker sequence node2, node1, node2, when
the second blocking read returns through a server-side timeout with
the unchanged value node2 and unchanged modify index, the watcher
re-sends the boolean for every successful read and so emits
false, false, true, false: two consecutive identical booleans with no
intervening value change, not false, true, false each exactly once. -/
theorem claim_C5_counterexample :
    ((watchRun "node1" "service/leader" 0
      [⟨false, KVResp.found "node2" 5⟩, ⟨false, KVResp.found "node2" 5⟩,
       ⟨false, KVResp.found "node1" 6⟩, ⟨false, KVResp.found "node2" 7⟩]).emitted
      = [false, false, true, false]) ∧
    ¬ ((watchRun "node1" "service/leader" 0
      [⟨false, KVResp.found "node2" 5⟩, ⟨false, KVResp.found "node2" 5⟩,
       ⟨false, KVResp.found "node1" 6⟩, ⟨false, KVResp.found "node2" 7⟩]).emitted
      = [false, true, false]) := by
  constructor
  · decide
  · decide

/-- Claim C5 amended: the watcher emits one boolean per successful
read it completes, so a server-side timeout that returns the
unchanged value re-emits the same boolean; when every successful read
reflects an actual value change, the node2, node1, node2 scenario for
node identifier node1 yields false, true, false, each exactly once. -/
theorem claim_C5_amended_per_read_emission :
    ((watchRun "node1" "service/leader" 0
      [⟨false, KVResp.found "node2" 5⟩, ⟨false, KVResp.found "node1" 6⟩,
       ⟨false, KVResp.found "node2" 7⟩]).emitted = [false, true, false]) ∧
    (∀ (node key v : String) (wi idx : Nat) (ps : List PollStep),
      (watchRun node key wi (⟨false, KVResp.found v idx⟩ :: ps)).emitted
        = (v == node) :: (watchRun node key idx ps).emitted) := by
  constructor
  · decide
  · intro node key v wi idx ps
    rfl

/-- Claim C6: on a store error or a missing record the watcher logs,
sleeps exactly one second and retries with an unchanged wait index,
for any number of consecutive failures with no backoff growth, no
emission and no exit; the loop exits only at an iteration where the
context is cancelled; and whenever it exits it returns the
cancellation error of the context. -/
theorem claim_C6_retry_forever (node key : String) (wi : Nat) :
    (∀ ps : List PollStep,
      (∀ p ∈ ps, p.cancelled = false ∧ p.resp.isFailure = true) →
      (watchRun node key wi ps).exited = false ∧
      (watchRun node key wi ps).emitted = [] ∧
      (watchRun node key wi ps).finalIndex = wi ∧
      (watchRun node key wi ps).sleeps = List.replicate ps.length 1) ∧
    (∀ ps : List PollStep, (watchRun node key wi ps).exited = true →
      ∃ p ∈ ps, p.cancelled = true) ∧
    (∀ ps : List PollStep, (watchRun node key wi ps).exited = true →
      (watchRun node key wi ps).retErr = some CtxErr.canceled) := by
  refine ⟨?_, ?_, ?_⟩
  · intro ps
    induction ps with
    | nil =>
        intro _
        simp [watchRun]
    | cons p ps ih =>
        intro hall
        obtain ⟨hc, hf⟩ := hall p (List.mem_cons_self p ps)
        have htail := ih (fun q hq => hall q (List.mem_cons_of_mem p hq))
        cases hr : p.resp with
        | err m =>
            simp only [watchRun, hr, hc, Bool.false_eq_true, if_false]
            simpa [List.replicate] using htail
        | missing =>
            simp only [watchRun, hr]
            simpa [List.replicate] using htail
        | found v idx =>
            rw [hr] at hf
            simp [KVResp.isFailure] at hf
  · intro ps
    exact watchRun_exit_cancel node key ps wi
  · intro ps
    exact watchRun_exit_ret node key ps wi

/-- Witness for C6: a cancelled iteration exits with the cancellation
error of the context. -/
theorem claim_C6_witness :
    (watchRun "node1" "service/leader" 0
      [⟨true, KVResp.err "connection refused"⟩]).retErr
      = some CtxErr.canceled :=
  (claim_C6_retry_forever "node1" "service/leader" 0).2.2
    [⟨true, KVResp.err "connection refused"⟩] (by decide)

/-- Claim C7 as stated is false on the code: QueryAddress decides by
substring containment, not by an exact match, so with configured CIDR
10.0.0.1/2 and an interface whose only live entry is the different,
longer 10.0.0.1/24, the scan reports true while no entry of the
address list equals the configured CIDR. -/
theorem claim_C7_counterexample :
    (QueryAddress "10.0.0.1/2" (renderAddrLines ["10.0.0.1/24"]) = true) ∧
    (queryAddressSpecExact "10.0.0.1/2" ["10.0.0.1/24"] = false) := by
  constructor
  · decide
  · decide

/-- Claim C7 amended: QueryAddress returns true exactly when some
output line of the address listing contains the text inet followed by
the configured CIDR as a substring, so a different, longer address
text extending the configured CIDR also satisfies it. -/
theorem claim_C7_amended_substring_semantics (cidr : String) (lines : List String) :
    QueryAddress cidr lines = true ↔
      ∃ l ∈ lines, ∃ p t, l.toList = p ++ ("inet " ++ cidr).toList ++ t := by
  rw [queryAddress_any]
  simp only [List.any_eq_true]
  constructor
  · rintro ⟨l, hl, hc⟩
    exact ⟨l, hl, (subAt_iff _ _).mp hc⟩
  · rintro ⟨l, hl, hpt⟩
    exact ⟨l, hl, (subAt_iff _ _).mpr hpt⟩

/-- Claim C8 as stated is false on the code: a failure to start the
address-list command inside the actual-state query escalates to a
panic, modelled as the error branch, terminating the process rather
than degrading to a retry. -/
theorem claim_C8_counterexample :
    reconcilePass "10.0.0.1/24" "eth0" "10.0.0.1" true
        (QueryOutcome.startErr "exec: ip: executable file not found")
        CmdResult.ok
      = Except.error "exec: ip: executable file not found" := rfl

/-- Claim C8 amended: once the address-list command has started, a
whole reconciliation pass returns normally for every scan output and
every mutation outcome, degrading failures to a retry on the next
wake; the only conditions fatal to the process are a failure to
create the stdout pipe of the query command or to start it; and the
mutation helper never panics, always returning a boolean after its
single command. -/
theorem claim_C8_amended_fatality (cidr iface vip : String) (desired : Bool) :
    (∀ (lines : List String) (mres : CmdResult),
      exceptFatal
        (reconcilePass cidr iface vip desired (QueryOutcome.output lines) mres)
        = false) ∧
    (∀ q : QueryOutcome,
      exceptFatal (QueryAddressRun cidr q) = QueryOutcome.beforeScan q) ∧
    (∀ (action : String) (res : CmdResult),
      (runAddressConfiguration cidr iface vip action res).cmds
        = [OsCmd.ipAddr action cidr iface]) := by
  refine ⟨?_, ?_, ?_⟩
  · intro lines mres
    by_cases h : QueryAddress cidr lines = desired
    · simp [reconcilePass, QueryAddressRun, h, exceptFatal]
    · cases desired <;> simp [reconcilePass, QueryAddressRun, h, exceptFatal]
  · intro q
    cases q <;> rfl
  · intro action res
    exact runAC_cmds cidr iface vip action res

/-- Claim C9: whenever the coordinator returns, the reconciler has
already exited and a deconfigure action is in the trace; the
coordinator observing cancellation broadcasts once more before
blocking for the join; and a step can only move the coordinator to
returned from the join wait with the reconciler already exited. -/
theorem claim_C9_shutdown_join (es : List Ev)
    (h : (sysRun sysInit es).1.cpc = CPC.returned) :
    (Act.deconfigure ∈ (sysRun sysInit es).2) ∧
    ((sysRun sysInit es).1.rpc = RPC.exited) ∧
    (∀ s : Sys, s.cpc = CPC.loop → s.ctxDone = true →
      (sysStep s Ev.coordObserveDone).2 = [Act.broadcast] ∧
      (sysStep s Ev.coordObserveDone).1.cpc = CPC.waitingRec) ∧
    (∀ (s : Sys) (e : Ev), (sysStep s e).1.cpc = CPC.returned →
      s.cpc = CPC.returned ∨ (s.cpc = CPC.waitingRec ∧ s.rpc = RPC.exited)) := by
  have hex : (sysRun sysInit es).1.rpc = RPC.exited := by
    rcases sysRun_returned_exited es sysInit h with h1 | h1
    · exact absurd h1 (by decide)
    · exact h1
  have hdec : Act.deconfigure ∈ (sysRun sysInit es).2 := by
    rcases sysRun_exit_deconf es sysInit hex with h1 | h1
    · exact absurd h1 (by decide)
    · exact h1
  exact ⟨hdec, hex, by decide, sysStep_returned_source⟩

/-- Witness for C9 on a concrete shutdown schedule. -/
theorem claim_C9_witness :
    Act.deconfigure ∈ (sysRun sysInit
      [Ev.cancelCtx, Ev.recRun false, Ev.coordObserveDone, Ev.recRun false,
       Ev.coordJoin]).2 :=
  (claim_C9_shutdown_join
    [Ev.cancelCtx, Ev.recRun false, Ev.coordObserveDone, Ev.recRun false,
     Ev.coordJoin] (by decide)).1

/-- Claim C10: the configure helper runs only the address add command
and never the duplicate probe; no action of any reconciler or
coordinator schedule runs the probe command; and the probe helper
itself returns false whenever its command fails in any way and true
only on a clean exit. -/
theorem claim_C10_no_arp_probe (cidr iface vip i v : String)
    (res : CmdResult) (es : List Ev) :
    ((ConfigureAddress cidr iface vip res).cmds
      = [OsCmd.ipAddr "add" cidr iface]) ∧
    (OsCmd.arping i v ∉ ((sysRun sysInit es).2.map (actCmds cidr iface vip)).flatten) ∧
    ((ARPQueryDuplicates iface vip CmdResult.ok).result = true) ∧
    (∀ st, (ARPQueryDuplicates iface vip (CmdResult.exitErr st)).result = false) ∧
    (∀ m, (ARPQueryDuplicates iface vip (CmdResult.otherErr m)).result = false) := by
  have hact : ∀ a : Act, OsCmd.arping i v ∉ actCmds cidr iface vip a := by
    intro a
    cases a <;>
      simp [actCmds, ConfigureAddress, DeconfigureAddress, prependLog,
        runAddressConfiguration]
  refine ⟨?_, ?_, rfl, fun st => rfl, fun m => rfl⟩
  · show (runAddressConfiguration cidr iface vip "add" res).cmds = _
    exact runAC_cmds cidr iface vip "add" res
  · intro hmem
    simp only [List.mem_flatten, List.mem_map] at hmem
    obtain ⟨l, ⟨a, _, rfl⟩, hvl⟩ := hmem
    exact hact a hvl
